import Mathlib

/-!
Verification of the buddy-system page allocator (`src/buddysystem.c`) and the
scheduler picker (`src/scheduler_algorithm.c`) of the Group04 kernel.

The C code is shallowly embedded: page descriptors are addressed by index
(the C address arithmetic `base + i * stride` of `__get_page_from_base`
becomes the index `i`), the intrusive free lists become `List Nat` of
descriptor indices, and the 32-bit unsigned arithmetic of the C types
(`unsigned int`, `time_t`, `uint32_t`) is made explicit with `% 2^32`.
Kernel panics become `Except.error` with the panic message.
-/

/-- 2^32, the modulus of the 32-bit unsigned types used throughout the C code. -/
def U32MOD : Nat := 4294967296

/-- Reduction of a value into 32-bit unsigned range. -/
def u32 (n : Nat) : Nat := n % U32MOD

/-- 32-bit unsigned subtraction `a - b` (wraps below zero, like C `unsigned`). -/
def u32sub (a b : Nat) : Nat := (u32 a + (U32MOD - u32 b)) % U32MOD

/-- 32-bit unsigned decrement, as in the C `nr_free--` on an `unsigned int`. -/
def u32dec (n : Nat) : Nat := (n + (U32MOD - 1)) % U32MOD

/-- `UINT_MAX` from `limits.h`. -/
def UINT_MAX : Nat := 4294967295

/-- In-place update of the `n`-th element of a list, modelling a write through
a pointer to the `n`-th descriptor.  Out-of-range writes are dropped. -/
def listModify (f : α → α) : Nat → List α → List α
  | _, [] => []
  | 0, a :: as => f a :: as
  | n + 1, a :: as => a :: listModify f n as

/-- Read of the `n`-th element of a list with an explicit default for
out-of-range reads. -/
def listGetD : List α → Nat → α → α
  | [], _, d => d
  | a :: _, 0, _ => a
  | _ :: as, n + 1, d => listGetD as n d

/-- A page descriptor (`bb_page_t`).  The C `flags` bitset holds the two bits
`FREE_PAGE` and `ROOT_PAGE` (buddysystem.c:27-30); they are modelled as the
two booleans `free` and `root`.  The intrusive `location.siblings` /
`location.cache` links live in the containing instance's lists instead. -/
structure BBPage where
  free : Bool
  root : Bool
  order : Nat
deriving DecidableEq, Inhabited, Repr

/-- A free-area manager (`bb_free_area_t`): the `nr_free` counter (a C
`unsigned int`) and the list of indices of free block heads; the front of the
Lean list is the node right after the C list head. -/
structure BBFreeArea where
  nr_free : Nat
  free_list : List Nat
deriving DecidableEq, Inhabited, Repr

/-- A buddy-system instance (`bb_instance_t`).  `free_area` has length
`MAX_BUDDYSYSTEM_GFP_ORDER` (a build constant, kept symbolic as the list
length).  `cache_list`/`cache_size` are `free_pages_cache_list` and
`free_pages_cache_size`.  `base_page`, `bbpg_offset` and `pgs_size` disappear
in the index-based addressing; `name` is irrelevant to the claims. -/
structure BBInstance where
  size : Nat
  pages : List BBPage
  free_area : List BBFreeArea
  cache_list : List Nat
  cache_size : Nat
deriving DecidableEq, Inhabited, Repr

/-- Write through a descriptor pointer: update descriptor `i`. -/
def bb_update_page (inst : BBInstance) (i : Nat) (f : BBPage → BBPage) : BBInstance :=
  { inst with pages := listModify f i inst.pages }

/-- Update the free-area manager of the given order. -/
def bb_update_area (inst : BBInstance) (k : Nat) (f : BBFreeArea → BBFreeArea) : BBInstance :=
  { inst with free_area := listModify f k inst.free_area }

/-- The upward scan of `bb_alloc_pages` (buddysystem.c:132-137): starting from
the area of the requested order (the caller passes `free_area.drop order` and
`start = order`), return the first order whose free list is non-empty. -/
def __bb_find_order : List BBFreeArea → Nat → Option Nat
  | [], _ => none
  | a :: rest, start =>
      if a.free_list.isEmpty then __bb_find_order rest (start + 1) else some start

/-- The split loop of `bb_alloc_pages` (buddysystem.c:159-182).  `k` is the
number of remaining iterations (`current_order - order`); each iteration
halves `size`, marks the buddy at `page + size` as a root of the lower order
and prepends it to that area's free list, incrementing `nr_free`. -/
def __bb_split (page : Nat) : Nat → Nat → Nat → BBInstance → BBInstance
  | 0, _, _, inst => inst
  | k + 1, order, size, inst =>
      let current_order := order + k
      let size' := size / 2
      let buddy := page + size'
      let inst1 := bb_update_page inst buddy
        (fun p => { p with order := current_order, root := true })
      let inst2 := bb_update_area inst1 current_order
        (fun a => { a with free_list := buddy :: a.free_list, nr_free := u32 (a.nr_free + 1) })
      __bb_split page k order size' inst2

/-- `bb_alloc_pages` (buddysystem.c:123-188).  Returns the allocated block
head (if any) together with the updated instance; on exhaustion the instance
is returned untouched (the upward scan is read-only).  The C `assert` at
line 153 (popped head is FREE and ROOT) holds on well-formed instances and is
not modelled as a failure. -/
def bb_alloc_pages (inst : BBInstance) (order : Nat) : Option Nat × BBInstance :=
  match __bb_find_order (inst.free_area.drop order) order with
  | none => (none, inst)
  | some current_order =>
    match (listGetD inst.free_area current_order ⟨0, []⟩).free_list with
    | [] => (none, inst)
    | page :: rest =>
      let inst1 := bb_update_area inst current_order
        (fun a => { a with free_list := rest, nr_free := u32dec a.nr_free })
      let inst2 := bb_update_page inst1 page (fun p => { p with free := false })
      let inst3 := __bb_split page (current_order - order) order (2 ^ current_order) inst2
      let inst4 := bb_update_page inst3 page (fun p => { p with order := order })
      (some page, inst4)

/-- The merge loop of `bb_free_pages` (buddysystem.c:210-239).  `fuel` is the
number of remaining iterations allowed by the guard `order < MAX_ORDER - 1`;
it is passed as `MAX_ORDER - 1 - order` and kept equal to that quantity, so
the fuel-based recursion runs exactly the C loop.  Returns the instance, the
final `page_idx` and the final `order`.  An out-of-range buddy read yields the
all-false descriptor, which fails the `__page_is_buddy` test and stops. -/
def __bb_merge : Nat → BBInstance → Nat → Nat → BBInstance × Nat × Nat
  | 0, inst, page_idx, order => (inst, page_idx, order)
  | fuel + 1, inst, page_idx, order =>
      let buddy_idx := page_idx ^^^ (2 ^ order)
      let buddy := listGetD inst.pages buddy_idx ⟨false, false, 0⟩
      if buddy.free && buddy.order == order then
        let inst1 := bb_update_area inst order
          (fun a => { a with free_list := a.free_list.erase buddy_idx, nr_free := u32dec a.nr_free })
        let inst2 := bb_update_page inst1 buddy_idx (fun p => { p with root := false })
        let inst3 := bb_update_page inst2 page_idx (fun p => { p with root := false })
        __bb_merge fuel inst3 (page_idx &&& buddy_idx) (order + 1)
      else (inst, page_idx, order)

/-- `bb_free_pages` (buddysystem.c:190-253).  The double-deallocation check at
lines 203-205 (`FREE` already set, or `ROOT` clear) is the kernel panic,
modelled as `Except.error` with the panic message.  After the merge loop the
final head gets `ROOT` set (the C sets it twice, a no-op) and the coalesced
order, and is prepended to that order's free list.  NOTE: exactly as in the C
source, `nr_free` of the destination area is NOT incremented here. -/
def bb_free_pages (inst : BBInstance) (page : Nat) : Except String BBInstance :=
  let pg := listGetD inst.pages page ⟨false, false, 0⟩
  let order := pg.order
  if pg.free || !pg.root then
    Except.error "Double deallocation in buddy system!"
  else
    let inst1 := bb_update_page inst page (fun p => { p with free := true })
    let res := __bb_merge (inst.free_area.length - 1 - order) inst1 page order
    let inst2 := res.1
    let page_idx := res.2.1
    let order' := res.2.2
    let inst3 := bb_update_page inst2 page_idx (fun p => { p with root := true })
    let inst4 := bb_update_page inst3 page_idx (fun p => { p with order := order' })
    let inst5 := bb_update_area inst4 order'
      (fun a => { a with free_list := page_idx :: a.free_list })
    Except.ok inst5

/-- The initial-block loop of `buddy_system_init` (buddysystem.c:304-315):
while `page + block_size <= size`, mark `page` as a root of the top order,
append it to that area's list (`list_head_insert_before` the head = append),
bump `nr_free`, advance by `block_size`.  `fuel = size` bounds the iteration
count (the stride is at least 1). -/
def __bb_init_blocks (mo bs : Nat) : Nat → Nat → BBInstance → BBInstance
  | 0, _, inst => inst
  | fuel + 1, page, inst =>
      if page + bs ≤ inst.size then
        let inst1 := bb_update_page inst page (fun p => { p with order := mo, root := true })
        let inst2 := bb_update_area inst1 mo
          (fun a => { a with free_list := a.free_list ++ [page], nr_free := u32 (a.nr_free + 1) })
        __bb_init_blocks mo bs fuel (page + bs) inst2
      else inst

/-- `buddy_system_init` (buddysystem.c:255-318) for a given build constant
`MAX_BUDDYSYSTEM_GFP_ORDER = maxOrder` and page count `size`.  Every
descriptor starts with `FREE` set and `ROOT` clear; the C leaves `order`
uninitialised for non-head descriptors, modelled as 0.  The trailing
alignment `assert` is outside the modelled claims. -/
def buddy_system_init (maxOrder size : Nat) : BBInstance :=
  let inst : BBInstance :=
    { size := size
      pages := List.replicate size ⟨true, false, 0⟩
      free_area := List.replicate maxOrder ⟨0, []⟩
      cache_list := []
      cache_size := 0 }
  __bb_init_blocks (maxOrder - 1) (2 ^ (maxOrder - 1)) size 0 inst

/-- `buddy_system_get_total_space` (buddysystem.c:331-334): `size * PAGE_SIZE`
as C `unsigned long` (32-bit on this target). -/
def buddy_system_get_total_space (PAGE_SIZE : Nat) (inst : BBInstance) : Nat :=
  u32 (inst.size * PAGE_SIZE)

/-- `buddy_system_get_free_space` (buddysystem.c:336-342): accumulates
`nr_free * (1 << order) * PAGE_SIZE` into an `unsigned int`. -/
def buddy_system_get_free_space (PAGE_SIZE : Nat) (inst : BBInstance) : Nat :=
  (List.range inst.free_area.length).foldl
    (fun acc k => u32 (acc + (listGetD inst.free_area k ⟨0, []⟩).nr_free * 2 ^ k * PAGE_SIZE)) 0

/-- `buddy_system_get_cached_space` (buddysystem.c:344-350): the C loop runs
once per order and adds `free_pages_cache_size * PAGE_SIZE` on every
iteration (the loop variable is unused in the body). -/
def buddy_system_get_cached_space (PAGE_SIZE : Nat) (inst : BBInstance) : Nat :=
  (List.range inst.free_area.length).foldl
    (fun acc _ => u32 (acc + inst.cache_size * PAGE_SIZE)) 0

/-- Cache low watermark (buddysystem.c:20). -/
def LOW_WATERMARK_LEVEL : Nat := 10
/-- Cache high watermark (buddysystem.c:22). -/
def HIGH_WATERMARK_LEVEL : Nat := 70
/-- Cache midway watermark (buddysystem.c:24). -/
def MID_WATERMARK_LEVEL : Nat := (LOW_WATERMARK_LEVEL + HIGH_WATERMARK_LEVEL) / 2

/-- `__cache_extend` (buddysystem.c:352-359): `count` times allocate an
order-0 block, push it on the front of the cache list and increment
`free_pages_cache_size`.  The C dereferences the result of `bb_alloc_pages`
unconditionally; a null return is modelled as `none`. -/
def __cache_extend : BBInstance → Nat → Option BBInstance
  | inst, 0 => some inst
  | inst, count + 1 =>
    match bb_alloc_pages inst 0 with
    | (none, _) => none
    | (some page, inst1) =>
        __cache_extend
          { inst1 with cache_list := page :: inst1.cache_list
                       cache_size := u32 (inst1.cache_size + 1) } count

/-- `__cache_shrink` (buddysystem.c:361-369): `count` times pop the front of
the cache list, give the page back to the buddy system and decrement
`free_pages_cache_size`.  A pop from an empty list or a panicking free is
modelled as `none`. -/
def __cache_shrink : BBInstance → Nat → Option BBInstance
  | inst, 0 => some inst
  | inst, count + 1 =>
    match inst.cache_list with
    | [] => none
    | page :: rest =>
      match bb_free_pages { inst with cache_list := rest } page with
      | Except.error _ => none
      | Except.ok inst1 => __cache_shrink { inst1 with cache_size := u32dec inst1.cache_size } count

/-- `__cached_alloc` (buddysystem.c:371-381): refill by `MID - cache_size`
when below the low watermark, then pop and return the front of the cache
list.  NOTE: exactly as in the C source, the pop does NOT decrement
`free_pages_cache_size`. -/
def __cached_alloc (inst : BBInstance) : Option (Nat × BBInstance) :=
  let step1 : Option BBInstance :=
    if inst.cache_size < LOW_WATERMARK_LEVEL then
      __cache_extend inst (MID_WATERMARK_LEVEL - inst.cache_size)
    else some inst
  match step1 with
  | none => none
  | some inst1 =>
    match inst1.cache_list with
    | [] => none
    | page :: rest => some (page, { inst1 with cache_list := rest })

/-- `__cached_free` (buddysystem.c:383-392): push the page on the front of
the cache list; shrink by `cache_size - MID` when above the high watermark.
NOTE: exactly as in the C source, the push does NOT increment
`free_pages_cache_size`. -/
def __cached_free (inst : BBInstance) (page : Nat) : Option BBInstance :=
  let inst1 := { inst with cache_list := page :: inst.cache_list }
  if inst1.cache_size > HIGH_WATERMARK_LEVEL then
    __cache_shrink inst1 (inst1.cache_size - MID_WATERMARK_LEVEL)
  else some inst1

/-- `bb_alloc_page_cached` (buddysystem.c:394-397). -/
def bb_alloc_page_cached (inst : BBInstance) : Option (Nat × BBInstance) :=
  __cached_alloc inst

/-- `bb_free_page_cached` (buddysystem.c:399-402). -/
def bb_free_page_cached (inst : BBInstance) (page : Nat) : Option BBInstance :=
  __cached_free inst page

/-- Well-formedness of the free-area lists, the property the C `assert`s
rely on: every index linked in a free list denotes an in-range descriptor
with `FREE` and `ROOT` set. -/
abbrev BBWellFormed (inst : BBInstance) : Prop :=
  ∀ a ∈ inst.free_area, ∀ i ∈ a.free_list,
    i < inst.pages.length ∧
    (listGetD inst.pages i ⟨false, false, 0⟩).free = true ∧
    (listGetD inst.pages i ⟨false, false, 0⟩).root = true

/-- Demonstration instance: `buddy_system_init` with `MAX_ORDER = 2` over two
page frames (one top-order block). -/
def demoInst0 : BBInstance := buddy_system_init 2 2

/-- State after `bb_alloc_pages(demoInst0, 0)` (which returns head 0). -/
def demoInst1 : BBInstance := (bb_alloc_pages demoInst0 0).2

/-- State after giving head 0 back with `bb_free_pages`. -/
def demoInst2 : BBInstance :=
  match bb_free_pages demoInst1 0 with
  | Except.ok s => s
  | Except.error _ => demoInst1

/-- Instance exercising `buddy_system_get_cached_space` with the spec's
typical `MAX_ORDER = 14` and one cached page. -/
def demoCachedInst : BBInstance :=
  { size := 0, pages := [], free_area := List.replicate 14 ⟨0, []⟩
    cache_list := [], cache_size := 1 }

/-- Fresh degenerate instance (`MAX_ORDER = 1`, 128 frames, every frame its
own order-0 free block) used to drive the single-page cache scenario. -/
def demoCacheBase : BBInstance := buddy_system_init 1 128

/-- Iterate `__cached_alloc`, dropping the returned pages. -/
def iterCachedAlloc : Nat → Option BBInstance → Option BBInstance
  | 0, s => s
  | n + 1, s => iterCachedAlloc n (s.bind (fun i => (__cached_alloc i).map (fun r => r.2)))

/-- Iterate `__cached_free`, pushing distinct page numbers. -/
def iterCachedFree : Nat → Option BBInstance → Option BBInstance
  | 0, s => s
  | n + 1, s => iterCachedFree n (s.bind (fun i => __cached_free i n))

/-- Cache state after 5 `alloc_cached` calls on the fresh instance. -/
def demoCacheAfterAllocs : Option BBInstance := iterCachedAlloc 5 (some demoCacheBase)

/-- Cache state after the 5 allocations followed by 71 `free_cached` calls. -/
def demoCacheAfterFrees : Option BBInstance := iterCachedFree 71 demoCacheAfterAllocs

/-- Task state: the policies only distinguish `TASK_RUNNING` from everything
else (`entry->state != TASK_RUNNING`). -/
inductive TaskState where
  | RUNNING
  | OTHER
deriving DecidableEq, Inhabited, Repr

/-- The scheduling entity `sched_entity` of a task.  All tick-valued fields
(`time_t`) are 32-bit unsigned counters; arithmetic on them is reduced with
`u32`. -/
structure SchedEntity where
  prio : Nat
  vruntime : Nat
  exec_start : Nat
  exec_runtime : Nat
  sum_exec_runtime : Nat
  is_periodic : Bool
  is_under_analysis : Bool
  period : Nat
  deadline : Nat
  next_period : Nat
  executed : Bool
deriving DecidableEq, Inhabited, Repr

/-- `task_struct`, restricted to the fields the picker reads or writes. -/
structure TaskStruct where
  state : TaskState
  se : SchedEntity
deriving DecidableEq, Inhabited, Repr

/-- The run queue: the circular `queue` list is the task list in head-to-tail
order (the sentinel head itself is implicit), `curr` is the index of the
currently running task, which is linked in the queue (invariant I-S). -/
structure RunQueue where
  tasks : List TaskStruct
  curr : Nat
deriving DecidableEq, Inhabited, Repr

/-- `__is_periodic_task` (scheduler_algorithm.c:30-34). -/
def __is_periodic_task (t : TaskStruct) : Bool :=
  t.se.is_periodic && !t.se.is_under_analysis

/-- Traversal order of `list_for_each_decl(it, &runqueue->curr->run_list)`
(used by RR, Priority, CFS): the nodes after `curr`, then (skipping the
sentinel head) the nodes before `curr`; `curr`'s own node is the anchor and
is never visited. -/
def rotOrd (rq : RunQueue) : List Nat :=
  List.range' (rq.curr + 1) (rq.tasks.length - (rq.curr + 1)) ++ List.range' 0 rq.curr

/-- `__scheduler_rr` (scheduler_algorithm.c:43-67): with at most one linked
task return `curr`; otherwise return the first traversed task that is
RUNNING and not a skipped periodic task, or `none` (C: NULL). -/
def __scheduler_rr (rq : RunQueue) (skip_periodic : Bool) : Option Nat :=
  if rq.tasks.length ≤ 1 then some rq.curr
  else
    (rotOrd rq).find? (fun i =>
      match rq.tasks.get? i with
      | none => false
      | some entry =>
          decide (entry.state = TaskState.RUNNING) &&
          !(__is_periodic_task entry && skip_periodic))

/-- `__scheduler_priority` (scheduler_algorithm.c:78-116), the body compiled
under `SCHEDULER_PRIORITY`: the candidate starts as the first task after the
head with its `prio` as the minimum, and each traversed RUNNING (and not
skipped) task with `prio <= min` replaces it (last tie wins). -/
def __scheduler_priority (rq : RunQueue) (skip_periodic : Bool) : Option Nat :=
  match rq.tasks with
  | [] => none
  | t0 :: _ =>
    if rq.tasks.length ≤ 1 then some rq.curr
    else
      some ((rotOrd rq).foldl
        (fun (acc : Nat × Nat) i =>
          match rq.tasks.get? i with
          | none => acc
          | some entry =>
            if entry.state ≠ TaskState.RUNNING then acc
            else if __is_periodic_task entry && skip_periodic then acc
            else if entry.se.prio ≤ acc.2 then (i, entry.se.prio) else acc)
        (0, t0.se.prio)).1

/-- `__scheduler_cfs` (scheduler_algorithm.c:128-165): like Priority but
minimising `vruntime` with strict `<` (first tie wins).  Note that the
initial candidate (the first task after the head) is not filtered by state
or periodicity. -/
def __scheduler_cfs (rq : RunQueue) (skip_periodic : Bool) : Option Nat :=
  match rq.tasks with
  | [] => none
  | t0 :: _ =>
    if rq.tasks.length ≤ 1 then some rq.curr
    else
      some ((rotOrd rq).foldl
        (fun (acc : Nat × Nat) i =>
          match rq.tasks.get? i with
          | none => acc
          | some entry =>
            if entry.state ≠ TaskState.RUNNING then acc
            else if __is_periodic_task entry && skip_periodic then acc
            else if entry.se.vruntime < acc.2 then (i, entry.se.vruntime) else acc)
        (0, t0.se.vruntime)).1

/-- `__scheduler_aedf` (scheduler_algorithm.c:171-202): over the whole queue
(anchored at the head, so every task is visited, with no state or
periodicity check), select the task with `deadline != 0` minimising
`deadline` with `<=` (last tie wins); fall back to CFS with
`skip_periodic = true`. -/
def __scheduler_aedf (rq : RunQueue) : Option Nat :=
  let r := (List.range rq.tasks.length).foldl
    (fun (acc : Option Nat × Nat) i =>
      match rq.tasks.get? i with
      | none => acc
      | some entry =>
        if entry.se.deadline ≠ 0 then
          if entry.se.deadline ≤ acc.2 then (some i, entry.se.deadline) else acc
        else acc)
    (none, UINT_MAX)
  match r.1 with
  | some i => some i
  | none => __scheduler_cfs rq true

/-- The EDF traversal (scheduler_algorithm.c:219-248): walk the queue with
running index `i`; skip non-periodic or under-analysis entries; an entry
that is `executed` with `next_period <= now` is rolled over (`executed`
cleared, `period` added to `deadline` and `next_period`) and is NOT a
candidate in this pass; otherwise a not-`executed` entry with
`deadline < next_dl` becomes the candidate.  Returns the updated task list
and the candidate index. -/
def __edf_scan (now : Nat) : List TaskStruct → Nat → Option Nat → Nat → List TaskStruct × Option Nat
  | [], _, next, _ => ([], next)
  | t :: rest, i, next, next_dl =>
    if !t.se.is_periodic || t.se.is_under_analysis then
      let r := __edf_scan now rest (i + 1) next next_dl
      (t :: r.1, r.2)
    else if t.se.executed && decide (t.se.next_period ≤ now) then
      let t' := { t with se := { t.se with
        executed := false
        deadline := u32 (t.se.deadline + t.se.period)
        next_period := u32 (t.se.next_period + t.se.period) } }
      let r := __edf_scan now rest (i + 1) next next_dl
      (t' :: r.1, r.2)
    else if !t.se.executed && decide (t.se.deadline < next_dl) then
      let r := __edf_scan now rest (i + 1) (some i) t.se.deadline
      (t :: r.1, r.2)
    else
      let r := __edf_scan now rest (i + 1) next next_dl
      (t :: r.1, r.2)

/-- `__scheduler_edf` (scheduler_algorithm.c:210-255): run the EDF traversal
(`next_dl` starts at `UINT_MAX`); if it produced no candidate, fall back to
CFS with `skip_periodic = true` over the updated queue. -/
def __scheduler_edf (rq : RunQueue) (now : Nat) : Option Nat × RunQueue :=
  let r := __edf_scan now rq.tasks 0 none UINT_MAX
  let rq' := { rq with tasks := r.1 }
  match r.2 with
  | some i => (some i, rq')
  | none => (__scheduler_cfs rq' true, rq')

/-- The RM traversal (scheduler_algorithm.c:273-297): identical to the EDF
one except that the minimised key is `next_period`. -/
def __rm_scan (now : Nat) : List TaskStruct → Nat → Option Nat → Nat → List TaskStruct × Option Nat
  | [], _, next, _ => ([], next)
  | t :: rest, i, next, next_np =>
    if !t.se.is_periodic || t.se.is_under_analysis then
      let r := __rm_scan now rest (i + 1) next next_np
      (t :: r.1, r.2)
    else if t.se.executed && decide (t.se.next_period ≤ now) then
      let t' := { t with se := { t.se with
        executed := false
        deadline := u32 (t.se.deadline + t.se.period)
        next_period := u32 (t.se.next_period + t.se.period) } }
      let r := __rm_scan now rest (i + 1) next next_np
      (t' :: r.1, r.2)
    else if !t.se.executed && decide (t.se.next_period < next_np) then
      let r := __rm_scan now rest (i + 1) (some i) t.se.next_period
      (t :: r.1, r.2)
    else
      let r := __rm_scan now rest (i + 1) next next_np
      (t :: r.1, r.2)

/-- `__scheduler_rm` (scheduler_algorithm.c:264-304). -/
def __scheduler_rm (rq : RunQueue) (now : Nat) : Option Nat × RunQueue :=
  let r := __rm_scan now rq.tasks 0 none UINT_MAX
  let rq' := { rq with tasks := r.1 }
  match r.2 with
  | some i => (some i, rq')
  | none => (__scheduler_cfs rq' true, rq')

/-- The LLF traversal (scheduler_algorithm.c:323-352).  The C computes
`int this_lax = (deadline - now) - sum_exec_runtime` in `unsigned` (`time_t`)
arithmetic, converts the result to `int` (two's complement), and then
compares `this_lax < min_lax` against the `time_t` variable `min_lax` — the
usual arithmetic conversions turn this into an UNSIGNED comparison of the
same 32-bit values, so the comparison is modelled on the `% 2^32`
representatives. -/
def __llf_scan (now : Nat) : List TaskStruct → Nat → Option Nat → Nat → List TaskStruct × Option Nat
  | [], _, next, _ => ([], next)
  | t :: rest, i, next, min_lax =>
    if !t.se.is_periodic || t.se.is_under_analysis then
      let r := __llf_scan now rest (i + 1) next min_lax
      (t :: r.1, r.2)
    else if t.se.executed && decide (t.se.next_period ≤ now) then
      let t' := { t with se := { t.se with
        executed := false
        deadline := u32 (t.se.deadline + t.se.period)
        next_period := u32 (t.se.next_period + t.se.period) } }
      let r := __llf_scan now rest (i + 1) next min_lax
      (t' :: r.1, r.2)
    else if !t.se.executed then
      let this_lax := u32sub (u32sub t.se.deadline now) t.se.sum_exec_runtime
      if this_lax < min_lax then
        let r := __llf_scan now rest (i + 1) (some i) this_lax
        (t :: r.1, r.2)
      else
        let r := __llf_scan now rest (i + 1) next min_lax
        (t :: r.1, r.2)
    else
      let r := __llf_scan now rest (i + 1) next min_lax
      (t :: r.1, r.2)

/-- `__scheduler_llf` (scheduler_algorithm.c:314-359). -/
def __scheduler_llf (rq : RunQueue) (now : Nat) : Option Nat × RunQueue :=
  let r := __llf_scan now rq.tasks 0 none UINT_MAX
  let rq' := { rq with tasks := r.1 }
  match r.2 with
  | some i => (some i, rq')
  | none => (__scheduler_cfs rq' true, rq')

/-- `__update_task_statistics` (scheduler_algorithm.c:397-429).
`exec_runtime := now - exec_start` (unsigned); the external
`update_process_profiling_timer` call does not touch the modelled fields;
`sum_exec_runtime += exec_runtime`; for non-periodic tasks with
`weight != NICE_0_LOAD` the C rescales `exec_runtime` through `double`
arithmetic — modelled as exact integer scaling, which agrees with the C
whenever the product is exactly representable (the claims below never take
this branch) — and adds the (possibly rescaled) `exec_runtime` to
`vruntime`.  `GET_WEIGHT` and `NICE_0_LOAD` come from the external `prio.h`
and are passed as parameters `wt` and `nice0`. -/
def __update_task_statistics (wt : Nat → Nat) (nice0 : Nat) (now : Nat) (t : TaskStruct) : TaskStruct :=
  let er := u32sub now t.se.exec_start
  let sum := u32 (t.se.sum_exec_runtime + er)
  if !t.se.is_periodic then
    let weight := wt t.se.prio
    let er2 := if weight ≠ nice0 then er * nice0 / weight else er
    { t with se := { t.se with
        exec_runtime := er2
        sum_exec_runtime := sum
        vruntime := u32 (t.se.vruntime + er2) } }
  else
    { t with se := { t.se with exec_runtime := er, sum_exec_runtime := sum } }

/-- The build-time scheduling policy selection, one of
`SCHEDULER_{RR,PRIORITY,CFS,EDF,RM,AEDF,LLF}`. -/
inductive SchedPolicy where
  | RR
  | PRIORITY
  | CFS
  | EDF
  | RM
  | AEDF
  | LLF
deriving DecidableEq, Repr

/-- The statistics-update step of `scheduler_pick_next_task`: per the `#if`
at scheduler_algorithm.c:365, `__update_task_statistics(runqueue->curr)` runs
only under CFS/EDF/RM/AEDF/LLF. -/
def __sched_stats_step (wt : Nat → Nat) (nice0 : Nat) (pol : SchedPolicy)
    (rq : RunQueue) (now : Nat) : RunQueue :=
  match pol with
  | SchedPolicy.RR => rq
  | SchedPolicy.PRIORITY => rq
  | _ => { rq with tasks := listModify (__update_task_statistics wt nice0 now) rq.curr rq.tasks }

/-- The policy dispatch of `scheduler_pick_next_task`
(scheduler_algorithm.c:371-387): the selected index and the (possibly
updated, for EDF/RM/LLF) run queue. -/
def __sched_select (pol : SchedPolicy) (rq0 : RunQueue) (now : Nat) : Option Nat × RunQueue :=
  match pol with
  | SchedPolicy.RR => (__scheduler_rr rq0 false, rq0)
  | SchedPolicy.PRIORITY => (__scheduler_priority rq0 false, rq0)
  | SchedPolicy.CFS => (__scheduler_cfs rq0 false, rq0)
  | SchedPolicy.EDF => __scheduler_edf rq0 now
  | SchedPolicy.RM => __scheduler_rm rq0 now
  | SchedPolicy.AEDF => (__scheduler_aedf rq0, rq0)
  | SchedPolicy.LLF => __scheduler_llf rq0 now

/-- `scheduler_pick_next_task` (scheduler_algorithm.c:362-395): update the
statistics of `curr` (only under CFS/EDF/RM/AEDF/LLF), dispatch to the
selected policy, panic (`assert`) when the selection is empty, and finally
write `next.se.exec_start := now`. -/
def scheduler_pick_next_task (wt : Nat → Nat) (nice0 : Nat) (pol : SchedPolicy)
    (rq : RunQueue) (now : Nat) : Except String (Nat × RunQueue) :=
  match __sched_select pol (__sched_stats_step wt nice0 pol rq now) now with
  | (none, _) => Except.error "No valid task selected by the scheduling algorithm."
  | (some i, rq1) =>
      Except.ok (i, { rq1 with
        tasks := listModify (fun t => { t with se := { t.se with exec_start := now } }) i rq1.tasks })

/-- An all-zero scheduling entity, the base of the concrete scenarios. -/
def seZero : SchedEntity :=
  { prio := 0, vruntime := 0, exec_start := 0, exec_runtime := 0, sum_exec_runtime := 0,
    is_periodic := false, is_under_analysis := false, period := 0, deadline := 0,
    next_period := 0, executed := false }

/-- LLF scenario, task past its deadline: at `now = 10` its laxity
`deadline - now - sum_exec_runtime` is `-5`. -/
def llfTaskLate : TaskStruct :=
  { state := TaskState.RUNNING, se := { seZero with is_periodic := true, deadline := 5 } }

/-- LLF scenario, comfortable task: at `now = 10` its laxity is `90`. -/
def llfTaskSlack : TaskStruct :=
  { state := TaskState.RUNNING, se := { seZero with is_periodic := true, deadline := 100 } }

/-- Run queue for the LLF negative-laxity scenario. -/
def rqLLFDemo : RunQueue := { tasks := [llfTaskLate, llfTaskSlack], curr := 0 }

/-- The task T of spec scenario S4: periodic, period 100, deadline 150,
next_period 100, already `executed`. -/
def edfTaskT : TaskStruct :=
  { state := TaskState.RUNNING,
    se := { seZero with is_periodic := true, executed := true, period := 100,
                        deadline := 150, next_period := 100 } }

/-- A second periodic task, not `executed`, with the later deadline 300. -/
def edfTaskU : TaskStruct :=
  { state := TaskState.RUNNING,
    se := { seZero with is_periodic := true, executed := false, period := 400,
                        deadline := 300, next_period := 350 } }

/-- Run queue holding T and U. -/
def rqEDFPairDemo : RunQueue := { tasks := [edfTaskT, edfTaskU], curr := 0 }

/-- Run queue holding T alone (exactly scenario S4). -/
def rqEDFSoloDemo : RunQueue := { tasks := [edfTaskT], curr := 0 }

/-- A non-RUNNING task that is the first one linked after the queue head and
has the smallest `vruntime`. -/
def cfsSleeper : TaskStruct := { state := TaskState.OTHER, se := seZero }

/-- A RUNNING task with a larger `vruntime`. -/
def cfsRunner : TaskStruct :=
  { state := TaskState.RUNNING, se := { seZero with vruntime := 5 } }

/-- Run queue whose first-linked task is not RUNNING but has the minimal
`vruntime`. -/
def rqCFSDemo : RunQueue := { tasks := [cfsSleeper, cfsRunner], curr := 1 }

/-- A periodic task still under analysis (so EDF itself skips it), used as
`curr` to watch the statistics update. -/
def statCurrDemo : TaskStruct :=
  { state := TaskState.RUNNING,
    se := { seZero with is_periodic := true, is_under_analysis := true } }

/-- Run queue holding only `statCurrDemo`. -/
def rqStatDemo : RunQueue := { tasks := [statCurrDemo], curr := 0 }

/-- Two RUNNING aperiodic tasks, `curr` first: RR picks the second. -/
def rqRRDemo : RunQueue :=
  { tasks := [{ state := TaskState.RUNNING, se := seZero },
              { state := TaskState.RUNNING, se := seZero }], curr := 0 }

/-- The run queue produced by a RR pick on `rqRRDemo` at tick 7. -/
def rqRRFrameNext : RunQueue :=
  match scheduler_pick_next_task (fun _ => 1024) 1024 SchedPolicy.RR rqRRDemo 7 with
  | Except.ok r => r.2
  | Except.error _ => rqRRDemo

/-- The run queue produced by a Priority pick on `rqRRDemo` at tick 7. -/
def rqPrioFrameNext : RunQueue :=
  match scheduler_pick_next_task (fun _ => 1024) 1024 SchedPolicy.PRIORITY rqRRDemo 7 with
  | Except.ok r => r.2
  | Except.error _ => rqRRDemo

/-- Two linked tasks where only `curr` itself is RUNNING: RR has no
candidate. -/
def rqRRStuckDemo : RunQueue :=
  { tasks := [{ state := TaskState.RUNNING, se := seZero },
              { state := TaskState.OTHER, se := seZero }], curr := 0 }

theorem listModify_length (f : α → α) (n : Nat) (l : List α) :
    (listModify f n l).length = l.length := by
  induction l generalizing n with
  | nil => cases n <;> rfl
  | cons a as ih =>
    cases n with
    | zero => rfl
    | succ m => simp only [listModify, List.length_cons, ih]

theorem listModify_oob (f : α → α) (n : Nat) (l : List α) (h : l.length ≤ n) :
    listModify f n l = l := by
  induction l generalizing n with
  | nil => cases n <;> rfl
  | cons a as ih =>
    cases n with
    | zero => exact absurd h (by simp)
    | succ m =>
      simp only [listModify, List.cons.injEq, true_and]
      exact ih m (by simpa using h)

theorem listGetD_oob (l : List α) (n : Nat) (d : α) (h : l.length ≤ n) :
    listGetD l n d = d := by
  induction l generalizing n with
  | nil => cases n <;> rfl
  | cons a as ih =>
    cases n with
    | zero => exact absurd h (by simp)
    | succ m => exact ih m (by simpa using h)

theorem listGetD_modify_self (f : α → α) (n : Nat) (l : List α) (d : α) (h : n < l.length) :
    listGetD (listModify f n l) n d = f (listGetD l n d) := by
  induction l generalizing n with
  | nil => exact absurd h (by simp)
  | cons a as ih =>
    cases n with
    | zero => rfl
    | succ m => exact ih m (by simpa using h)

theorem listGetD_modify_ne (f : α → α) {i j : Nat} (l : List α) (d : α) (h : i ≠ j) :
    listGetD (listModify f j l) i d = listGetD l i d := by
  induction l generalizing i j with
  | nil => cases j <;> cases i <;> rfl
  | cons a as ih =>
    cases j with
    | zero =>
      cases i with
      | zero => exact absurd rfl h
      | succ m => rfl
    | succ jm =>
      cases i with
      | zero => rfl
      | succ m => exact ih (fun hc => h (by rw [hc]))

theorem proj_listGetD_modify (g : α → β) (f : α → α) (hf : ∀ a, g (f a) = g a)
    (j : Nat) (l : List α) (i : Nat) (d : α) :
    g (listGetD (listModify f j l) i d) = g (listGetD l i d) := by
  by_cases hij : i = j
  · subst hij
    by_cases hlen : i < l.length
    · rw [listGetD_modify_self f i l d hlen, hf]
    · rw [listModify_oob f i l (le_of_not_lt hlen)]
  · rw [listGetD_modify_ne f l d hij]

theorem listGetD_eq_get? (l : List α) (n : Nat) (d : α) :
    listGetD l n d = (l.get? n).getD d := by
  induction l generalizing n with
  | nil => cases n <;> rfl
  | cons a as ih =>
    cases n with
    | zero => rfl
    | succ m => exact ih m

theorem listGetD_mem (l : List α) (n : Nat) (d : α) (h : n < l.length) :
    listGetD l n d ∈ l := by
  induction l generalizing n with
  | nil => exact absurd h (by simp)
  | cons a as ih =>
    cases n with
    | zero => exact List.mem_cons_self a as
    | succ m => exact List.mem_cons_of_mem a (ih m (by simpa using h))

theorem listGetD_drop (l : List α) (k i : Nat) (d : α) :
    listGetD (l.drop k) i d = listGetD l (k + i) d := by
  induction l generalizing k with
  | nil => simp only [List.drop_nil]; cases i <;> cases k <;> simp [listGetD]
  | cons a as ih =>
    cases k with
    | zero => simp only [List.drop_zero, Nat.zero_add]
    | succ m =>
      rw [Nat.succ_add]
      exact ih m

theorem find_order_none (areas : List BBFreeArea) (s : Nat)
    (h : ∀ a ∈ areas, a.free_list = []) :
    __bb_find_order areas s = none := by
  induction areas generalizing s with
  | nil => rfl
  | cons a rest ih =>
    have ha : a.free_list = [] := h a (List.mem_cons_self a rest)
    unfold __bb_find_order
    rw [ha]
    simp only [List.isEmpty_nil, if_true]
    exact ih (s + 1) (fun b hb => h b (List.mem_cons_of_mem a hb))

theorem find_order_some (areas : List BBFreeArea) (s co : Nat)
    (h : __bb_find_order areas s = some co) :
    s ≤ co ∧ co - s < areas.length ∧ (listGetD areas (co - s) ⟨0, []⟩).free_list ≠ [] := by
  induction areas generalizing s with
  | nil => exact absurd h (by simp [__bb_find_order])
  | cons a rest ih =>
    unfold __bb_find_order at h
    by_cases he : a.free_list.isEmpty
    · rw [if_pos he] at h
      obtain ⟨h1, h2, h3⟩ := ih (s + 1) h
      refine ⟨by omega, by simp only [List.length_cons]; omega, ?_⟩
      have hco : co - s = (co - (s + 1)) + 1 := by omega
      rw [hco]
      exact h3
    · rw [if_neg he] at h
      have hsc : s = co := by injection h
      subst hsc
      refine ⟨le_refl s, by simp, ?_⟩
      rw [Nat.sub_self]
      simpa [List.isEmpty_iff] using he

theorem split_pages_length (page k order size : Nat) (inst : BBInstance) :
    (__bb_split page k order size inst).pages.length = inst.pages.length := by
  induction k generalizing size inst with
  | zero => rfl
  | succ k ih =>
    show (__bb_split page k order (size / 2) _).pages.length = _
    rw [ih]
    simp only [bb_update_area, bb_update_page, listModify_length]

theorem split_getD_page (page k order size : Nat) (inst : BBInstance) (d : BBPage)
    (h : 2 ^ k ≤ size) :
    listGetD (__bb_split page k order size inst).pages page d = listGetD inst.pages page d := by
  induction k generalizing size inst with
  | zero => rfl
  | succ k ih =>
    have hsz : 2 ^ k ≤ size / 2 := by
      rw [Nat.le_div_iff_mul_le (by norm_num)]
      calc 2 ^ k * 2 = 2 ^ (k + 1) := (pow_succ 2 k).symm
        _ ≤ size := h
    have hpos : 1 ≤ size / 2 := le_trans Nat.one_le_two_pow hsz
    show listGetD (__bb_split page k order (size / 2) _).pages page d = _
    rw [ih _ _ hsz]
    simp only [bb_update_area, bb_update_page]
    exact listGetD_modify_ne _ _ _ (by omega)

theorem merge_free_flag (fuel : Nat) :
    ∀ (inst : BBInstance) (page_idx order i : Nat) (d : BBPage),
    (listGetD (__bb_merge fuel inst page_idx order).1.pages i d).free =
      (listGetD inst.pages i d).free := by
  induction fuel with
  | zero => intro inst pidx ord i d; rfl
  | succ fuel ih =>
    intro inst pidx ord i d
    show (listGetD (if _ then _ else _ : BBInstance × Nat × Nat).1.pages i d).free = _
    split
    · rw [ih]
      simp only [bb_update_page, bb_update_area]
      rw [proj_listGetD_modify BBPage.free (fun p => { p with root := false }) (fun p => rfl),
          proj_listGetD_modify BBPage.free (fun p => { p with root := false }) (fun p => rfl)]
    · rfl

theorem free_tail_chain_free (inst2 : BBInstance) (pidx ord p : Nat) (d : BBPage) :
    (listGetD (bb_update_area
        (bb_update_page (bb_update_page inst2 pidx (fun q => { q with root := true }))
          pidx (fun q => { q with order := ord }))
        ord (fun a => { a with free_list := pidx :: a.free_list })).pages p d).free =
      (listGetD inst2.pages p d).free := by
  simp only [bb_update_area, bb_update_page]
  rw [proj_listGetD_modify BBPage.free (fun q => { q with order := ord }) (fun q => rfl),
      proj_listGetD_modify BBPage.free (fun q => { q with root := true }) (fun q => rfl)]

theorem free_pages_sets_free (inst : BBInstance) (p : Nat) (inst' : BBInstance)
    (h : bb_free_pages inst p = Except.ok inst') :
    (listGetD inst'.pages p ⟨false, false, 0⟩).free = true := by
  unfold bb_free_pages at h
  by_cases hc : (listGetD inst.pages p ⟨false, false, 0⟩).free
             || !(listGetD inst.pages p ⟨false, false, 0⟩).root
  · rw [if_pos hc] at h
    exact absurd h (by simp)
  · rw [if_neg hc] at h
    have hroot : (listGetD inst.pages p ⟨false, false, 0⟩).root = true := by
      rcases Bool.or_eq_false_iff.mp (Bool.eq_false_iff.mpr hc) with ⟨-, h2⟩
      simpa using h2
    have hplen : p < inst.pages.length := by
      by_contra hl
      rw [listGetD_oob inst.pages p ⟨false, false, 0⟩ (le_of_not_lt hl)] at hroot
      exact absurd hroot (by simp)
    simp only [Except.ok.injEq] at h
    subst h
    rw [free_tail_chain_free, merge_free_flag]
    simp only [bb_update_page]
    rw [listGetD_modify_self _ p inst.pages _ hplen]

theorem alloc_tail_flags (inst : BBInstance) (co order p : Nat) (rest : List Nat) (d : BBPage)
    (hplen : p < inst.pages.length) (hk : 2 ^ (co - order) ≤ 2 ^ co) :
    listGetD (bb_update_page
        (__bb_split p (co - order) order (2 ^ co)
          (bb_update_page (bb_update_area inst co
            (fun a => { a with free_list := rest, nr_free := u32dec a.nr_free }))
            p (fun q => { q with free := false })))
        p (fun q => { q with order := order })).pages p d
      = { listGetD inst.pages p d with free := false, order := order } := by
  have h1 : (bb_update_page (bb_update_area inst co
      (fun a => { a with free_list := rest, nr_free := u32dec a.nr_free }))
      p (fun q => { q with free := false })).pages
      = listModify (fun q => { q with free := false }) p inst.pages := rfl
  have h2 : ∀ (x : BBInstance) (i : Nat) (f : BBPage → BBPage),
      (bb_update_page x i f).pages = listModify f i x.pages := fun _ _ _ => rfl
  rw [h2]
  rw [listGetD_modify_self _ p _ d (by rw [split_pages_length, h1, listModify_length]; exact hplen)]
  rw [split_getD_page _ _ _ _ _ _ hk, h1, listGetD_modify_self _ p _ d hplen]

/-- C8: freeing a descriptor whose FREE flag is already set or whose ROOT
flag is clear makes `bb_free_pages` panic with the "Double deallocation"
message instead of returning an error; in particular, after a successful
`bb_free_pages` on a head, a second `bb_free_pages` on the same head panics
(the first free leaves the head's FREE flag set). -/
theorem spec_C8_double_free_panics :
    (∀ (inst : BBInstance) (p : Nat),
      ((listGetD inst.pages p ⟨false, false, 0⟩).free = true ∨
       (listGetD inst.pages p ⟨false, false, 0⟩).root = false) →
      bb_free_pages inst p = Except.error "Double deallocation in buddy system!") ∧
    (∀ (inst : BBInstance) (p : Nat) (inst' : BBInstance),
      bb_free_pages inst p = Except.ok inst' →
      bb_free_pages inst' p = Except.error "Double deallocation in buddy system!") := by
  constructor
  · intro inst p h
    rcases h with h | h <;> simp [bb_free_pages, h]
  · intro inst p inst' h
    have hf := free_pages_sets_free inst p inst' h
    simp [bb_free_pages, hf]

set_option maxRecDepth 100000 in
/-- Witness for C8: on the fresh two-page instance, freeing the never
allocated root 0 panics (FREE still set); and after allocating head 0 and
freeing it once, the second free panics. -/
theorem spec_C8_double_free_panics_w :
    bb_free_pages demoInst0 0 = Except.error "Double deallocation in buddy system!" ∧
    bb_free_pages demoInst2 0 = Except.error "Double deallocation in buddy system!" :=
  ⟨spec_C8_double_free_panics.1 demoInst0 0 (Or.inl (by decide)),
   spec_C8_double_free_panics.2 demoInst1 0 demoInst2 (by rfl)⟩

set_option maxRecDepth 100000 in
/-- C1: evaluation of the round-trip `alloc(0)` then `free` on the fresh
`MAX_ORDER = 2`, `size = 2` instance.  The free fully re-merges the block
(the top free list again holds head 0, length 1) but the code of
`bb_free_pages` never increments `nr_free` of the destination area, so
`free_area[MAX_ORDER-1].nr_free` is 0 instead of the claimed
`size / 2^(MAX_ORDER-1) = 1`, and no longer equals the length of its list
(invariant I-A.5 is broken by the code). -/
theorem spec_C1_free_omits_nr_free_increment :
    bb_free_pages demoInst1 0 = Except.ok demoInst2 ∧
    (listGetD demoInst2.free_area 1 ⟨0, []⟩).nr_free = 0 ∧
    (listGetD demoInst2.free_area 1 ⟨0, []⟩).free_list.length = 1 ∧
    demoInst0.size / 2 ^ 1 = 1 :=
  ⟨rfl, by decide, by decide, by decide⟩

/-- C9: exhaustion atomicity and success contract of `bb_alloc_pages`.
If every free area at the requested order and above is empty, the call
returns null and the instance is returned literally unchanged (the upward
scan is read-only).  On success, on a well-formed instance, the returned
head has FREE clear, ROOT set, and its `order` field records the requested
order (the descriptor heads a block of `2^order` frames). -/
theorem spec_C9_alloc_exhaustion_and_contract (inst : BBInstance) (order : Nat) :
    ((∀ a ∈ inst.free_area.drop order, a.free_list = []) →
      bb_alloc_pages inst order = (none, inst)) ∧
    (BBWellFormed inst →
      ∀ (p : Nat) (inst' : BBInstance), bb_alloc_pages inst order = (some p, inst') →
        (listGetD inst'.pages p ⟨false, false, 0⟩).free = false ∧
        (listGetD inst'.pages p ⟨false, false, 0⟩).root = true ∧
        (listGetD inst'.pages p ⟨false, false, 0⟩).order = order) := by
  constructor
  · intro h
    unfold bb_alloc_pages
    rw [find_order_none _ order h]
  · intro hwf p inst' h
    unfold bb_alloc_pages at h
    split at h
    · exact absurd h (by simp)
    · rename_i co hfo
      split at h
      · exact absurd h (by simp)
      · rename_i page rest hl
        obtain ⟨hsle, hlt, -⟩ := find_order_some _ order co hfo
        have hcolen : co < inst.free_area.length := by
          have hdl := List.length_drop order inst.free_area
          omega
        simp only [Prod.mk.injEq, Option.some.injEq] at h
        obtain ⟨hpage, hinst⟩ := h
        subst hpage
        subst hinst
        have hmem : listGetD inst.free_area co ⟨0, []⟩ ∈ inst.free_area :=
          listGetD_mem _ co _ hcolen
        have hpmem : page ∈ (listGetD inst.free_area co ⟨0, []⟩).free_list := by
          rw [hl]; exact List.mem_cons_self _ _
        obtain ⟨hplen, hpfree, hproot⟩ := hwf _ hmem page hpmem
        rw [alloc_tail_flags inst co order page rest _ hplen
          (Nat.pow_le_pow_right (by norm_num) (Nat.sub_le co order))]
        exact ⟨rfl, hproot, rfl⟩

set_option maxRecDepth 100000 in
/-- Witness for C9: on the fresh two-page instance, requesting order 2 (all
areas at or above it are empty) fails without touching the state, and the
successful order-0 allocation returns head 0 with FREE clear, ROOT set and
order 0. -/
theorem spec_C9_alloc_exhaustion_and_contract_w :
    bb_alloc_pages demoInst0 2 = (none, demoInst0) ∧
    ((listGetD demoInst1.pages 0 ⟨false, false, 0⟩).free = false ∧
     (listGetD demoInst1.pages 0 ⟨false, false, 0⟩).root = true ∧
     (listGetD demoInst1.pages 0 ⟨false, false, 0⟩).order = 0) :=
  ⟨(spec_C9_alloc_exhaustion_and_contract demoInst0 2).1 (by decide),
   (spec_C9_alloc_exhaustion_and_contract demoInst0 0).2 (by decide) 0 demoInst1 (by rfl)⟩

/-- C6: evaluation of `buddy_system_get_cached_space` at an instance with
`MAX_ORDER = 14` areas, one cached page and `PAGE_SIZE = 4096`.  The C loop
body ignores its loop variable and adds `cache_size * PAGE_SIZE` once per
order, returning 14 * 4096 = 57344 instead of the claimed
`cache_size * PAGE_SIZE = 4096`. -/
theorem spec_C6_cached_space_overcounts :
    buddy_system_get_cached_space 4096 demoCachedInst = 57344 ∧
    demoCachedInst.cache_size * 4096 = 4096 ∧
    (57344 : Nat) ≠ 4096 := by decide

set_option maxRecDepth 1000000 in
/-- C2: evaluation of the cache scenario S2 on a fresh instance that serves
arbitrary order-0 requests.  The first `alloc_cached` refills by
`MID - 0 = 40`, but the pop in `__cached_alloc` never decrements
`free_pages_cache_size`, so after 5 allocations the counter is still 40
(the claim requires 35) while the list really holds 35 pages; the push in
`__cached_free` never increments the counter, so after 71 frees the counter
still reads 40, never exceeds HIGH = 70, and the drain never runs (the list
has grown to 106 pages). -/
theorem spec_C2_cache_counter_never_updated :
    demoCacheAfterAllocs.map (fun i => i.cache_size) = some 40 ∧
    demoCacheAfterAllocs.map (fun i => i.cache_list.length) = some 35 ∧
    demoCacheAfterFrees.map (fun i => i.cache_size) = some 40 ∧
    demoCacheAfterFrees.map (fun i => i.cache_list.length) = some 106 :=
  ⟨rfl, rfl, rfl, rfl⟩

/-- C3: evaluation of the LLF policy at `now = 10` on a task past its
deadline (signed laxity `5 - 10 - 0 = -5`) listed before a task with slack
(laxity `100 - 10 - 0 = 90`).  The C declares `int this_lax` but compares it
against the `time_t` (unsigned) running minimum, so `-5` participates as
`4294967291` and the policy selects the task with the LARGER signed laxity,
index 1, not the missed-deadline task at index 0 as the claim requires. -/
theorem spec_C3_llf_negative_laxity_mishandled :
    (__scheduler_llf rqLLFDemo 10).1 = some 1 ∧
    (__scheduler_llf rqLLFDemo 10).1 ≠ some 0 ∧
    ((5 : Int) - 10 - 0 < (100 : Int) - 10 - 0) := by decide

/-- C5 counterexample: with scenario-S4 task T and a second periodic task U
(`executed = false`, deadline 300), one EDF invocation at `now = 105` rolls
T forward to deadline 250 but returns U: the rollover branch does not make
T a candidate in the same pass, so the claim "T becomes the candidate
returned (when no other periodic task has an earlier deadline)" fails even
though T's updated deadline 250 is earlier than U's 300. -/
theorem spec_C5_edf_rollover_cex :
    (__scheduler_edf rqEDFPairDemo 105).1 = some 1 ∧
    (__scheduler_edf rqEDFPairDemo 105).1 ≠ some 0 ∧
    (listGetD (__scheduler_edf rqEDFPairDemo 105).2.tasks 0 default).se.deadline = 250 ∧
    (listGetD (__scheduler_edf rqEDFPairDemo 105).2.tasks 1 default).se.deadline = 300 ∧
    (250 : Nat) < 300 := by decide

/-- C5 as amended: on scenario S4 (T alone, `now = 105`) the EDF invocation
clears `executed` and advances `deadline` to 250 and `next_period` to 200,
but the EDF traversal itself yields no candidate (`next` stays null); the
returned task comes from the CFS fallback, which here returns T because it
is the only linked task. -/
theorem spec_C5_edf_rollover_updates_fields :
    (__edf_scan 105 rqEDFSoloDemo.tasks 0 none UINT_MAX).2 = none ∧
    (__scheduler_edf rqEDFSoloDemo 105).1 = some 0 ∧
    (listGetD (__scheduler_edf rqEDFSoloDemo 105).2.tasks 0 default).se.executed = false ∧
    (listGetD (__scheduler_edf rqEDFSoloDemo 105).2.tasks 0 default).se.deadline = 250 ∧
    (listGetD (__scheduler_edf rqEDFSoloDemo 105).2.tasks 0 default).se.next_period = 200 := by
  decide

/-- C7 counterexample: CFS initialises its candidate with the first task
linked after the queue head without any state filter; when that task is not
RUNNING but holds the minimal `vruntime`, no later task strictly improves on
the minimum and the non-RUNNING task is returned. -/
theorem spec_C7_cfs_returns_non_running_cex :
    __scheduler_cfs rqCFSDemo false = some 0 ∧
    (listGetD rqCFSDemo.tasks 0 default).state ≠ TaskState.RUNNING := by decide

/-- C7 as amended: Round-Robin does filter by state: whenever more than one
task is linked, any task it returns is RUNNING (the other policies do not
guarantee this: Priority and CFS return their unfiltered initial candidate,
and EDF/RM/AEDF/LLF never test `state`). -/
theorem spec_C7_rr_only_returns_running (rq : RunQueue) (skip : Bool) (i : Nat)
    (hlen : 1 < rq.tasks.length) (h : __scheduler_rr rq skip = some i) :
    (listGetD rq.tasks i default).state = TaskState.RUNNING := by
  unfold __scheduler_rr at h
  rw [if_neg (by omega)] at h
  have hp := List.find?_some h
  cases hget : rq.tasks.get? i with
  | none =>
    rw [hget] at hp
    exact absurd hp (by simp)
  | some e =>
    rw [hget] at hp
    have hp' : (decide (e.state = TaskState.RUNNING) && !(__is_periodic_task e && skip)) = true := hp
    rw [Bool.and_eq_true] at hp'
    have he : e.state = TaskState.RUNNING := of_decide_eq_true hp'.1
    rw [listGetD_eq_get?, hget]
    exact he

/-- Witness for C7: on the two-RUNNING-task queue, RR picks index 1, and the
theorem yields that it is RUNNING. -/
theorem spec_C7_rr_only_returns_running_w :
    (listGetD rqRRDemo.tasks 1 default).state = TaskState.RUNNING :=
  spec_C7_rr_only_returns_running rqRRDemo false 1 (by decide) (by rfl)

/-- C4 counterexample: under the EDF build, `scheduler_pick_next_task`
updates `curr`'s statistics before picking: with `curr` at `exec_start = 0`,
`sum_exec_runtime = 0` and `now = 5`, the returned queue holds
`sum_exec_runtime = 5` for `curr` — a second observable write besides
`next.se.exec_start`, refuting the claimed frame property. -/
theorem spec_C4_picker_frame_cex :
    (scheduler_pick_next_task (fun _ => 1024) 1024 SchedPolicy.EDF rqStatDemo 5).toOption.map
        (fun r => (listGetD r.2.tasks 0 default).se.sum_exec_runtime) = some 5 ∧
    (listGetD rqStatDemo.tasks 0 default).se.sum_exec_runtime = 0 := by decide

/-- C4 as amended: under the RR and Priority builds (no statistics update
per the `#if` at scheduler_algorithm.c:365, and policies that mutate
nothing), the frame property does hold — a successful pick changes exactly
the chosen task's `exec_start`, leaving every other field and `curr`
untouched. -/
theorem spec_C4_rr_priority_pick_frame (wt : Nat → Nat) (nice0 : Nat) (pol : SchedPolicy)
    (hpol : pol = SchedPolicy.RR ∨ pol = SchedPolicy.PRIORITY)
    (rq : RunQueue) (now i : Nat) (rq' : RunQueue)
    (h : scheduler_pick_next_task wt nice0 pol rq now = Except.ok (i, rq')) :
    rq' = { rq with tasks := listModify (fun t => { t with se := { t.se with exec_start := now } }) i rq.tasks } := by
  rcases hpol with hpol | hpol
  · subst hpol
    unfold scheduler_pick_next_task at h
    rw [show __sched_select SchedPolicy.RR (__sched_stats_step wt nice0 SchedPolicy.RR rq now) now
        = (__scheduler_rr rq false, rq) from rfl] at h
    cases hr : __scheduler_rr rq false with
    | none =>
      rw [hr] at h
      have h' : (Except.error "No valid task selected by the scheduling algorithm."
          : Except String (Nat × RunQueue)) = Except.ok (i, rq') := h
      exact absurd h' (by simp)
    | some j =>
      rw [hr] at h
      have h' : Except.ok (j, { rq with tasks := listModify (fun t => { t with se := { t.se with exec_start := now } }) j rq.tasks })
          = Except.ok (i, rq') := h
      simp only [Except.ok.injEq, Prod.mk.injEq] at h'
      obtain ⟨hij, hrq⟩ := h'
      subst hij
      exact hrq.symm
  · subst hpol
    unfold scheduler_pick_next_task at h
    rw [show __sched_select SchedPolicy.PRIORITY (__sched_stats_step wt nice0 SchedPolicy.PRIORITY rq now) now
        = (__scheduler_priority rq false, rq) from rfl] at h
    cases hr : __scheduler_priority rq false with
    | none =>
      rw [hr] at h
      have h' : (Except.error "No valid task selected by the scheduling algorithm."
          : Except String (Nat × RunQueue)) = Except.ok (i, rq') := h
      exact absurd h' (by simp)
    | some j =>
      rw [hr] at h
      have h' : Except.ok (j, { rq with tasks := listModify (fun t => { t with se := { t.se with exec_start := now } }) j rq.tasks })
          = Except.ok (i, rq') := h
      simp only [Except.ok.injEq, Prod.mk.injEq] at h'
      obtain ⟨hij, hrq⟩ := h'
      subst hij
      exact hrq.symm

/-- Witness for C4: concrete RR and Priority picks at tick 7 each return
index 1, and each resulting queue is exactly the original with task 1's
`exec_start` set. -/
theorem spec_C4_rr_priority_pick_frame_w :
    rqRRFrameNext = { rqRRDemo with tasks := listModify (fun t => { t with se := { t.se with exec_start := 7 } }) 1 rqRRDemo.tasks } ∧
    rqPrioFrameNext = { rqRRDemo with tasks := listModify (fun t => { t with se := { t.se with exec_start := 7 } }) 1 rqRRDemo.tasks } :=
  ⟨spec_C4_rr_priority_pick_frame (fun _ => 1024) 1024 SchedPolicy.RR (Or.inl rfl)
      rqRRDemo 7 1 rqRRFrameNext (by rfl),
   spec_C4_rr_priority_pick_frame (fun _ => 1024) 1024 SchedPolicy.PRIORITY (Or.inr rfl)
      rqRRDemo 7 1 rqPrioFrameNext (by rfl)⟩

/-- C10: when more than one task is linked but every traversed candidate
(the traversal order excludes `curr`'s own node) is not RUNNING, Round-Robin
returns null even though `curr` itself may still be runnable, and
`scheduler_pick_next_task` then panics on the empty selection. -/
theorem spec_C10_rr_excludes_curr_panics (wt : Nat → Nat) (nice0 : Nat) (rq : RunQueue)
    (now : Nat) (hlen : 1 < rq.tasks.length) (_hcurr : rq.curr < rq.tasks.length)
    (h3 : ∀ j ∈ rotOrd rq, (listGetD rq.tasks j default).state ≠ TaskState.RUNNING) :
    scheduler_pick_next_task wt nice0 SchedPolicy.RR rq now =
      Except.error "No valid task selected by the scheduling algorithm." := by
  have hrr : __scheduler_rr rq false = none := by
    unfold __scheduler_rr
    rw [if_neg (by omega)]
    apply List.find?_eq_none.mpr
    intro j hj hpred
    cases hget : rq.tasks.get? j with
    | none =>
      rw [hget] at hpred
      exact absurd hpred (by simp)
    | some e =>
      rw [hget] at hpred
      have hp' : (decide (e.state = TaskState.RUNNING) && !(__is_periodic_task e && false)) = true :=
        hpred
      rw [Bool.and_eq_true] at hp'
      have he : e.state = TaskState.RUNNING := of_decide_eq_true hp'.1
      have hne := h3 j hj
      rw [listGetD_eq_get?, hget] at hne
      exact hne he
  unfold scheduler_pick_next_task
  rw [show __sched_select SchedPolicy.RR (__sched_stats_step wt nice0 SchedPolicy.RR rq now) now
      = (__scheduler_rr rq false, rq) from rfl, hrr]

/-- Witness for C10: two linked tasks, `curr` (index 0) RUNNING, the only
other task not RUNNING: the pick panics instead of returning the
still-runnable `curr`. -/
theorem spec_C10_rr_excludes_curr_panics_w :
    scheduler_pick_next_task (fun _ => 1024) 1024 SchedPolicy.RR rqRRStuckDemo 3 =
      Except.error "No valid task selected by the scheduling algorithm." :=
  spec_C10_rr_excludes_curr_panics (fun _ => 1024) 1024 rqRRStuckDemo 3
    (by decide) (by decide) (by decide)
